import Mathlib

/-!
Verification of the undevgoals preprocessing pipeline (preprocessing.py).

The pipeline turns a raw cross-country macroeconomic table into
feature/target pairs.  Rows are (country, indicator) time series; the
year columns are chronological and are followed by three metadata
columns (Country Name, Series Code, Series Name).  Missing values (NaN)
are modelled as `none : Option ℚ`.

The embedding below translates the source functions directly:
* `preprocess_simple` - row selection and the feature/target split;
* `get_continent` - override lists plus the external registry lookup;
* `impute_indyrcontavg` / `imputeRow` - the average-table imputer;
* `medianRecentFillRow` / `medianRecentPhase` - the median/recent-value
  imputer of `preprocess_avg_NANs`;
* `interpAt` / `interpRow` - the bounded backward linear interpolation
  (pandas `interpolate(method = linear, limit = 50,
  limit_direction = backward)`);
* `preprocess_avg_NANs` - the whole median/interpolation path.
-/

namespace Undevgoals

/-- Python exception classes relevant to the pipeline.  `keyError` and
`lookupError` are both LookupError-class conditions in Python. -/
inductive PyError where
  | keyError
  | lookupError
  deriving DecidableEq, Repr

/-- A LookupError-class condition: in Python, KeyError is a subclass of
LookupError. -/
def PyError.isLookupClass : PyError → Bool
  | PyError.keyError => true
  | PyError.lookupError => true

/-- One row of the table: its Series Name metadata field and its year
columns in chronological order (`none` = NaN).  The other metadata
fields play no role in the claims about this path. -/
structure Row where
  seriesName : String
  values : List (Option ℚ)
  deriving DecidableEq, Repr

/-- Row selection by label set: `training_set.loc[submit_rows_index]`
(labels modelled as positions into the table). -/
def selectRows (table : List Row) (idx : List Nat) : List Row :=
  idx.filterMap (fun j => table.get? j)

/-- Truncation to feature columns: `X.iloc[:, :-years_ahead]`. -/
def dropLastCols (years_ahead : Nat) (r : Row) : Row :=
  { r with values := r.values.take (r.values.length - years_ahead) }

/-- `preprocess_simple` (src/preprocessing.py lines 92-103), after the
metadata columns have been stripped and year labels renamed: selects the
submit rows, takes `Y = X.iloc[:, -1]` (the LAST year column) and
`X = X.iloc[:, :-years_ahead]`. -/
def preprocess_simple (table : List Row) (idx : List Nat) (years_ahead : Nat) :
    List Row × List (Option ℚ) :=
  let sel := selectRows table idx
  let Y := sel.map (fun r => (r.values.getLast?).join)
  let X := sel.map (dropLastCols years_ahead)
  (X, Y)

/-- Formalisation of the TARGET POSITION THE CLAIM ASSERTS (from the
spec's words, for comparison with the code): the year column at position
`-years_ahead` from the end, i.e. 0-based index `n - years_ahead`. -/
def claimedTarget (r : Row) (years_ahead : Nat) : Option ℚ :=
  (r.values.get? (r.values.length - years_ahead)).join

/-! ### Continent classifier (get_continent, lines 8-22) -/

/-- Override list folded into NA (line 11). -/
def naOverrides : List String :=
  ["Bahamas, The", "Curacao", "Sint Maarten (Dutch part)",
   "St. Kitts and Nevis", "St. Lucia", "St. Martin (French part)",
   "St. Vincent and the Grenadines", "Virgin Islands (U.S.)"]

/-- Override list folded into EU (line 13). -/
def euOverrides : List String :=
  ["Channel Islands", "Czech Republic", "Faeroe Islands", "Kosovo",
   "Macedonia, FYR", "Moldova", "Slovak Republic"]

/-- Override list folded into AS (line 15). -/
def asOverrides : List String :=
  ["Hong Kong SAR, China", "Iran, Islamic Rep.", "Korea, Dem. Rep.",
   "Korea, Rep.", "Kyrgyz Republic", "Lao PDR", "Macao SAR, China",
   "Micronesia, Fed. Sts.", "Timor-Leste", "Vietnam",
   "West Bank and Gaza", "Yemen, Rep."]

/-- Override list folded into AF (line 17). -/
def afOverrides : List String :=
  ["Congo, Dem. Rep.", "Congo, Rep.", "Cote d\x27Ivoire",
   "Egypt, Arab Rep.", "Tanzania", "Gambia, The"]

/-- Override pair mapped to SA (line 19). -/
def saOverrides : List String :=
  ["Bolivia", "Venezuela, RB"]

/-- The result the override chain alone would give (the if/elif chain of
lines 11-20, without the generic fallback): used to state which names are
covered by an override. -/
def overrideContinent (name : String) : Option String :=
  if name ∈ naOverrides then some "NA"
  else if name ∈ euOverrides then some "EU"
  else if name ∈ asOverrides then some "AS"
  else if name ∈ afOverrides then some "AF"
  else if name ∈ saOverrides then some "SA"
  else none

/-- `get_continent` (lines 8-22).  The generic fallback of line 22 is a
composition of two external services, passed as parameters:
`registry` is the name-to-alpha-2 lookup (pycountry), `a2cont` the
alpha-2-to-continent lookup (pycountry_convert).  Modelled from the
spec: both services are external to the repository; per the spec they
fail with a LookupError-class condition when the key is absent, which
the caller here propagates unchanged (there is no try/except in the
source). -/
def get_continent (registry a2cont : String → Except PyError String)
    (name : String) : Except PyError String :=
  if name ∈ naOverrides then Except.ok "NA"
  else if name ∈ euOverrides then Except.ok "EU"
  else if name ∈ asOverrides then Except.ok "AS"
  else if name ∈ afOverrides then Except.ok "AF"
  else if name ∈ saOverrides then Except.ok "SA"
  else
    match registry name with
    | Except.error e => Except.error e
    | Except.ok a2 => a2cont a2

/-! ### Average-table imputer
(preprocess_with_continent_interpolation, lines 51-64) -/

/-- `impute_indyrcontavg` (lines 51-56) on one cell: if the value is
missing, substitute the lookup-table entry keyed by (series code,
continent, year); a Python dict subscript with an absent key raises
KeyError.  The table is modelled as a partial map. -/
def impute_indyrcontavg (contAvgs : String → String → Nat → Option ℚ)
    (ind cont : String) (year : Nat) (v : Option ℚ) :
    Except PyError (Option ℚ) :=
  if v.isNone then
    match contAvgs ind cont year with
    | some a => Except.ok (some a)
    | none => Except.error PyError.keyError
  else Except.ok v

/-- The per-row loop of lines 58-64: apply `impute_indyrcontavg` to each
(year, value) cell of the row in order, stopping at the first error. -/
def imputeRow (contAvgs : String → String → Nat → Option ℚ)
    (ind cont : String) :
    List (Nat × Option ℚ) → Except PyError (List (Nat × Option ℚ))
  | [] => Except.ok []
  | (yr, v) :: rest =>
    match impute_indyrcontavg contAvgs ind cont yr v with
    | Except.error e => Except.error e
    | Except.ok w =>
      match imputeRow contAvgs ind cont rest with
      | Except.error e => Except.error e
      | Except.ok rest2 => Except.ok ((yr, w) :: rest2)

/-! ### Median / recent-value imputer (preprocess_avg_NANs, lines 147-170) -/

/-- Insertion into a sorted list of rationals. -/
def insertSorted (x : ℚ) : List ℚ → List ℚ
  | [] => [x]
  | y :: ys => if x ≤ y then x :: y :: ys else y :: insertSorted x ys

/-- Insertion sort on rationals (ascending). -/
def sortQ : List ℚ → List ℚ
  | [] => []
  | x :: xs => insertSorted x (sortQ xs)

/-- The median as computed by numpy: middle element of the sorted data
for odd length, mean of the two middle elements for even length, and an
undefined (NaN, here `none`) result on an empty list. -/
def npMedian (l : List ℚ) : Option ℚ :=
  let s := sortQ l
  if s.length = 0 then none
  else if s.length % 2 = 1 then (s.get? (s.length / 2))
  else
    match s.get? (s.length / 2 - 1), s.get? (s.length / 2) with
    | some a, some b => some ((a + b) / 2)
    | _, _ => none

/-- The 5th-from-last column of the full Raw Table
(`training_set.iloc[:, -5]`, line 149): the raw table has the year
columns followed by 3 metadata columns, so in a row holding only the
year columns this is the year column at index `length - 2`. -/
def fifthFromLast (r : Row) : Option ℚ :=
  (r.values.get? (r.values.length - 2)).join

/-- `median_of_others` (lines 154-158): the numpy median of the
non-missing entries of the 5th-from-last raw column across ALL rows of
the full table whose Series Name equals the indicator. -/
def medianOfOthers (full : List Row) (ind : String) : Option ℚ :=
  npMedian (((full.filter (fun r => r.seriesName = ind)).filterMap fifthFromLast))

/-- First non-missing value of a list of cells. -/
def firstNonNan : List (Option ℚ) → Option ℚ
  | [] => none
  | some v :: _ => some v
  | none :: rest => firstNonNan rest

/-- The lookback scan of lines 165-170: read the columns at positions
-2, -3, ..., -9 (np.arange(2, 10)), most recent first, and return the
first non-missing value found. -/
def lookbackRecent (vals : List (Option ℚ)) : Option ℚ :=
  firstNonNan ((List.range' 2 8).map (fun k => (vals.get? (vals.length - k)).join))

/-- The fill of lines 162-170 on one selected feature row: rows whose
most-recent feature value is present are untouched; a row whose
most-recent feature value is missing first receives `median_of_others`
there and is then overwritten by the first non-missing lookback value
when one exists.  The net effect on the last cell is
`lookbackRecent <|> medianOfOthers`. -/
def medianRecentFillRow (full : List Row) (r : Row) : Row :=
  if r.values.getLast? = some none then
    let fillVal : Option ℚ :=
      match lookbackRecent r.values with
      | some v => some v
      | none => medianOfOthers full r.seriesName
    { r with values := r.values.set (r.values.length - 1) fillVal }
  else r

/-- The whole median/recent-value phase (the loop over
`np.unique(full_training_rows[Series Name])`, lines 150-170): each
selected row with a missing most-recent feature value is treated exactly
once, in the iteration of its own indicator, so the phase acts on the
feature table row by row. -/
def medianRecentPhase (full : List Row) (X : List Row) : List Row :=
  X.map (medianRecentFillRow full)

/-! ### Interpolator (lines 173-178):
pandas Series.interpolate with method linear (index ignored, equally
spaced positions), limit 50, limit_direction backward. -/

/-- Nearest valid (non-missing) position strictly before `i`, with its
value. -/
def prevValid (vals : List (Option ℚ)) (i : Nat) : Option (Nat × ℚ) :=
  ((List.range i).reverse).findSome?
    (fun j => ((vals.get? j).join).map (fun a => (j, a)))

/-- Nearest valid (non-missing) position strictly after `i`, with its
value. -/
def nextValid (vals : List (Option ℚ)) (i : Nat) : Option (Nat × ℚ) :=
  (List.range' (i + 1) (vals.length - (i + 1))).findSome?
    (fun k => ((vals.get? k).join).map (fun b => (k, b)))

/-- The fill computed for a missing cell at position `i`.  With
limit_direction backward a missing cell is filled only when the next
valid cell is at distance at most 50 (the limit); NaNs after the last
valid cell are preserved; a cell between two valid cells gets the
linear interpolant; a cell before the first valid cell gets the clamped
boundary value of np.interp (the first valid value). -/
def interpFill (vals : List (Option ℚ)) (i : Nat) : Option ℚ :=
  match nextValid vals i with
  | none => none
  | some (k, b) =>
    if k - i ≤ 50 then
      match prevValid vals i with
      | some (j, a) =>
        some (a + (b - a) * (((i : ℚ) - (j : ℚ)) / ((k : ℚ) - (j : ℚ))))
      | none => some b
    else none

/-- The interpolated value at position `i`: present cells are kept,
missing cells receive `interpFill`. -/
def interpAt (vals : List (Option ℚ)) (i : Nat) : Option ℚ :=
  match vals.get? i with
  | some (some x) => some x
  | some none => interpFill vals i
  | none => none

/-- One row of the interpolation loop (lines 173-178). -/
def interpRow (vals : List (Option ℚ)) : List (Option ℚ) :=
  (List.range vals.length).map (interpAt vals)

/-- `preprocess_avg_NANs` (lines 124-180): select the submit rows, take
`Y = X.iloc[:, -1]` BEFORE any filling, truncate to the feature columns,
run the median/recent-value phase (reading cross-sectional statistics
from the full table), then interpolate each feature row.  `Y` is
extracted before both fill phases and never written afterwards. -/
def preprocess_avg_NANs (table : List Row) (idx : List Nat)
    (years_ahead : Nat) : List Row × List (Option ℚ) :=
  let sel := selectRows table idx
  let Y := sel.map (fun r => (r.values.getLast?).join)
  let X0 := sel.map (dropLastCols years_ahead)
  let X1 := medianRecentPhase table X0
  let X2 := X1.map (fun r => { r with values := interpRow r.values })
  (X2, Y)

end Undevgoals

namespace Undevgoals

/- Helper lemmas about list access, proved from first principles to keep
the development self-contained. -/

theorem get?_map_eq {α β : Type} (f : α → β) :
    ∀ (l : List α) (i : Nat), (l.map f).get? i = (l.get? i).map f := by
  intro l
  induction l with
  | nil => intro i; cases i <;> rfl
  | cons a as ih => intro i; cases i with
    | zero => rfl
    | succ n => exact ih n

theorem get?_some_lt {α : Type} {l : List α} {i : Nat} {a : α}
    (h : l.get? i = some a) : i < l.length := by
  induction l generalizing i with
  | nil => cases i <;> simp [List.get?] at h
  | cons x xs ih =>
    cases i with
    | zero => simp
    | succ n =>
      have := ih (i := n) h
      simpa [Nat.succ_lt_succ_iff] using this

theorem getLast?_eq_get? {α : Type} (l : List α) :
    l.getLast? = l.get? (l.length - 1) := by
  induction l with
  | nil => rfl
  | cons a as ih =>
    cases as with
    | nil => rfl
    | cons b bs =>
      rw [List.getLast?_cons_cons, ih]
      simp [List.length_cons, Nat.succ_sub_one]

theorem get?_set_ne {α : Type} (l : List α) (i j : Nat) (a : α)
    (h : i ≠ j) : (l.set i a).get? j = l.get? j := by
  induction l generalizing i j with
  | nil => rfl
  | cons x xs ih =>
    cases i with
    | zero =>
      cases j with
      | zero => exact absurd rfl h
      | succ m => rfl
    | succ n =>
      cases j with
      | zero => rfl
      | succ m =>
        have hnm : n ≠ m := fun he => h (by rw [he])
        simpa using ih n m hnm

theorem get?_set_self {α : Type} (l : List α) (i : Nat) (a : α)
    (h : i < l.length) : (l.set i a).get? i = some a := by
  induction l generalizing i with
  | nil => simp at h
  | cons x xs ih =>
    cases i with
    | zero => rfl
    | succ n =>
      have hn : n < xs.length := by simpa [Nat.succ_lt_succ_iff] using h
      simpa using ih n hn

theorem selectRows_get? (table : List Row) :
    ∀ (idx : List Nat) (i : Nat),
      (∀ k ∈ idx, (table.get? k).isSome = true) →
      (selectRows table idx).get? i = (idx.get? i).bind (fun j => table.get? j) := by
  intro idx
  induction idx with
  | nil => intro i _; cases i <;> rfl
  | cons k ks ih =>
    intro i hvalid
    have hk : (table.get? k).isSome = true := hvalid k (List.mem_cons_self k ks)
    obtain ⟨r, hr⟩ := Option.isSome_iff_exists.mp hk
    have hrest : ∀ m ∈ ks, (table.get? m).isSome = true := by
      intro m hm; exact hvalid m (List.mem_cons_of_mem k hm)
    have hr2 : table[k]? = some r := by
      rw [List.get?_eq_getElem?] at hr
      exact hr
    cases i with
    | zero => simp [selectRows, List.filterMap_cons, hr2]
    | succ n =>
      have := ih n hrest
      simp only [selectRows] at this
      simpa [selectRows, List.filterMap_cons, hr2] using this

/-- C1 counterexample: with 3 year columns and years_ahead = 2, the code
returns the LAST column (value 30) as the target, not the column at
position -years_ahead from the end (value 20), so the claim as stated is
false at this input. -/
theorem split_target_claim_cex :
    ¬ ((preprocess_simple [⟨"s", [some 10, some 20, some 30]⟩] [0] 2).2
        = [claimedTarget ⟨"s", [some 10, some 20, some 30]⟩ 2]) := by
  decide

/-- C1 (amended): the Target is always the LAST year column regardless of
years_ahead, the Features are the columns strictly before the cutoff at
-years_ahead from the end, and Features.column_count + years_ahead = n. -/
theorem split_target_amended (table : List Row) (idx : List Nat)
    (years_ahead i : Nat) (r : Row)
    (hr : (selectRows table idx).get? i = some r)
    (hya : years_ahead ≤ r.values.length) :
    (preprocess_simple table idx years_ahead).2.get? i
        = some ((r.values.getLast?).join) ∧
    ∃ rx, (preprocess_simple table idx years_ahead).1.get? i = some rx ∧
      rx.values = r.values.take (r.values.length - years_ahead) ∧
      rx.values.length + years_ahead = r.values.length := by
  constructor
  · show ((selectRows table idx).map (fun r => (r.values.getLast?).join)).get? i = _
    rw [get?_map_eq, hr]
    rfl
  · refine ⟨dropLastCols years_ahead r, ?_, rfl, ?_⟩
    · show ((selectRows table idx).map (dropLastCols years_ahead)).get? i = _
      rw [get?_map_eq, hr]
      rfl
    · have hlen : r.values.length - years_ahead ≤ r.values.length :=
        Nat.sub_le _ _
      show (r.values.take (r.values.length - years_ahead)).length + years_ahead
          = r.values.length
      rw [List.length_take]
      rw [min_eq_left hlen]
      omega

theorem getLast?_set_last {α : Type} (l : List α) (a : α) (h : 0 < l.length) :
    (l.set (l.length - 1) a).getLast? = some a := by
  rw [getLast?_eq_get?, List.length_set]
  exact get?_set_self l (l.length - 1) a (by omega)

theorem medianRecentPhase_get? (full : List Row) (X : List Row) (i : Nat)
    (r : Row) (hr : X.get? i = some r) :
    (medianRecentPhase full X).get? i = some (medianRecentFillRow full r) := by
  unfold medianRecentPhase
  rw [get?_map_eq, hr]
  rfl

theorem medianRecentFillRow_eq_of_scan (full : List Row) (r : Row) (v : ℚ)
    (hlast : r.values.getLast? = some none)
    (hscan : lookbackRecent r.values = some v) :
    medianRecentFillRow full r
      = { r with values := r.values.set (r.values.length - 1) (some v) } := by
  unfold medianRecentFillRow
  rw [if_pos hlast, hscan]

theorem medianRecentFillRow_eq_of_noscan (full : List Row) (r : Row)
    (hlast : r.values.getLast? = some none)
    (hscan : lookbackRecent r.values = none) :
    medianRecentFillRow full r
      = { r with values := r.values.set (r.values.length - 1) (medianOfOthers full r.seriesName) } := by
  unfold medianRecentFillRow
  rw [if_pos hlast, hscan]

/-- C2: a selected row whose most-recent feature value is missing and
whose 2nd-through-9th most-recent feature columns hold a non-missing
value gets, in its most-recent feature cell, the first non-missing value
found scanning most-recent-first - whatever the indicator median is. -/
theorem recent_value_precedence (full : List Row) (X : List Row) (i : Nat)
    (r : Row) (v : ℚ) (hr : X.get? i = some r)
    (h9 : 9 ≤ r.values.length)
    (hlast : r.values.getLast? = some none)
    (hscan : lookbackRecent r.values = some v) :
    ∃ r2, (medianRecentPhase full X).get? i = some r2 ∧
      r2.values.getLast? = some (some v) ∧
      r2.seriesName = r.seriesName := by
  refine ⟨medianRecentFillRow full r, medianRecentPhase_get? full X i r hr, ?_, ?_⟩
  · rw [medianRecentFillRow_eq_of_scan full r v hlast hscan]
    exact getLast?_set_last _ _ (by omega)
  · rw [medianRecentFillRow_eq_of_scan full r v hlast hscan]

/-- Witness for C2: the most recent still-present value (42, three years
back) is copied, row processed inside the phase. -/
theorem recent_value_precedence_witness :
    ∃ r2, (medianRecentPhase []
        [⟨"GDP", [none, none, none, none, none, none, none, some 42, none, none]⟩]).get? 0
        = some r2 ∧
      r2.values.getLast? = some (some 42) ∧
      r2.seriesName = "GDP" :=
  recent_value_precedence []
    [⟨"GDP", [none, none, none, none, none, none, none, some 42, none, none]⟩] 0
    ⟨"GDP", [none, none, none, none, none, none, none, some 42, none, none]⟩ 42
    rfl (by decide) (by decide) (by decide)

/-- C3: a selected row whose most-recent feature value is missing and
whose whole lookback window is missing gets the median of the
non-missing 5th-from-last raw-table column entries of the rows sharing
its indicator name. -/
theorem median_fallback (full : List Row) (X : List Row) (i : Nat)
    (r : Row) (m : ℚ) (hr : X.get? i = some r)
    (h9 : 9 ≤ r.values.length)
    (hlast : r.values.getLast? = some none)
    (hscan : lookbackRecent r.values = none)
    (hmed : medianOfOthers full r.seriesName = some m) :
    ∃ r2, (medianRecentPhase full X).get? i = some r2 ∧
      r2.values.getLast? = some (some m) ∧
      r2.seriesName = r.seriesName := by
  refine ⟨medianRecentFillRow full r, medianRecentPhase_get? full X i r hr, ?_, ?_⟩
  · rw [medianRecentFillRow_eq_of_noscan full r hlast hscan, hmed]
    exact getLast?_set_last _ _ (by omega)
  · rw [medianRecentFillRow_eq_of_noscan full r hlast hscan]

/-- Witness for C3: all lookback cells missing; the 5th-from-last raw
column holds 4 for the first GDP row and a missing value for the second,
so the indicator median is 4 and the fill writes it. -/
theorem median_fallback_witness :
    ∃ r2, (medianRecentPhase
        [⟨"GDP", [some 1, some 4, some 9]⟩, ⟨"GDP", [some 2, none, some 1]⟩]
        [⟨"GDP", [none, none, none, none, none, none, none, none, none, none]⟩]).get? 0
        = some r2 ∧
      r2.values.getLast? = some (some 4) ∧
      r2.seriesName = "GDP" :=
  median_fallback
    [⟨"GDP", [some 1, some 4, some 9]⟩, ⟨"GDP", [some 2, none, some 1]⟩]
    [⟨"GDP", [none, none, none, none, none, none, none, none, none, none]⟩] 0
    ⟨"GDP", [none, none, none, none, none, none, none, none, none, none]⟩ 4
    rfl (by decide) (by decide) (by decide) (by decide)

/-- C9: the median/recent-value phase writes only the most-recent
feature column: in every row, every feature cell strictly before the
last feature column is unchanged by the phase. -/
theorem median_phase_frame (full : List Row) (X : List Row) (i j : Nat)
    (r r2 : Row) (hr : X.get? i = some r)
    (hr2 : (medianRecentPhase full X).get? i = some r2)
    (hj : j + 1 < r.values.length) :
    r2.values.get? j = r.values.get? j := by
  rw [medianRecentPhase_get? full X i r hr] at hr2
  injection hr2 with hr2
  subst hr2
  unfold medianRecentFillRow
  split
  · exact get?_set_ne _ _ _ _ (by omega)
  · rfl

/-- Witness for C9: the phase fills the last cell of the row but leaves
cell 7 (the some 42) and cell 0 unchanged. -/
theorem median_phase_frame_witness :
    (medianRecentPhase []
        [⟨"GDP", [some 1, none, none, none, none, none, none, some 42, none, none]⟩]).get? 0
      = some (medianRecentFillRow []
          ⟨"GDP", [some 1, none, none, none, none, none, none, some 42, none, none]⟩) ∧
    (medianRecentFillRow []
        ⟨"GDP", [some 1, none, none, none, none, none, none, some 42, none, none]⟩).values.get? 7
      = some (some 42) := by
  constructor
  · rfl
  · have h := median_phase_frame []
      [⟨"GDP", [some 1, none, none, none, none, none, none, some 42, none, none]⟩] 0 7
      ⟨"GDP", [some 1, none, none, none, none, none, none, some 42, none, none]⟩
      (medianRecentFillRow []
        ⟨"GDP", [some 1, none, none, none, none, none, none, some 42, none, none]⟩)
      rfl rfl (by decide)
    rw [h]
    decide

theorem impute_error_is_keyError (contAvgs : String → String → Nat → Option ℚ)
    (ind cont : String) (year : Nat) (v : Option ℚ) (e : PyError)
    (h : impute_indyrcontavg contAvgs ind cont year v = Except.error e) :
    e = PyError.keyError := by
  unfold impute_indyrcontavg at h
  split at h
  · split at h <;> simp_all
  · simp_all

/-- C8: a country name in one of the override lists is classified with
the associated fixed continent code, whatever the external registry and
alpha-2-to-continent services would return: the generic lookup is never
consulted. -/
theorem override_short_circuit (registry a2cont : String → Except PyError String)
    (name c : String) (h : overrideContinent name = some c) :
    get_continent registry a2cont name = Except.ok c := by
  unfold overrideContinent at h
  unfold get_continent
  split_ifs at h ⊢ <;> simp_all

/-- Witness for C8: Bolivia is classified SA under adversarial external
services. -/
theorem override_short_circuit_witness :
    overrideContinent "Bolivia" = some "SA" ∧
    get_continent (fun _ => Except.ok "XX") (fun _ => Except.ok "YY")
      "Bolivia" = Except.ok "SA" :=
  ⟨by decide,
   override_short_circuit (fun _ => Except.ok "XX") (fun _ => Except.ok "YY")
     "Bolivia" "SA" (by decide)⟩

/-- C4: a country name covered by no override list whose registry lookup
fails is a fatal LookupError-class condition for get_continent: the
error is propagated unchanged, with no silent fallback. -/
theorem registry_failure_propagates
    (registry a2cont : String → Except PyError String) (name : String)
    (hov : overrideContinent name = none)
    (hreg : registry name = Except.error PyError.lookupError) :
    get_continent registry a2cont name = Except.error PyError.lookupError ∧
    PyError.lookupError.isLookupClass = true := by
  refine ⟨?_, rfl⟩
  unfold overrideContinent at hov
  unfold get_continent
  split_ifs at hov ⊢
  simp_all

/-- Witness for C4 at a name outside every override list. -/
theorem registry_failure_propagates_witness :
    overrideContinent "Atlantis" = none ∧
    (get_continent (fun _ => Except.error PyError.lookupError)
        (fun _ => Except.ok "YY") "Atlantis"
      = Except.error PyError.lookupError ∧
     PyError.lookupError.isLookupClass = true) :=
  ⟨by decide,
   registry_failure_propagates (fun _ => Except.error PyError.lookupError)
     (fun _ => Except.ok "YY") "Atlantis" (by decide) rfl⟩

/-- C5: a missing cell whose (series code, continent, year) key is
absent from the average lookup table makes the imputation of that row
fail with a KeyError-class condition: there is no default or fallback
average. -/
theorem avg_table_missing_key (contAvgs : String → String → Nat → Option ℚ)
    (ind cont : String) (entries : List (Nat × Option ℚ)) (yr : Nat)
    (hmem : (yr, (none : Option ℚ)) ∈ entries)
    (hkey : contAvgs ind cont yr = none) :
    imputeRow contAvgs ind cont entries = Except.error PyError.keyError := by
  induction entries with
  | nil => cases hmem
  | cons p rest ih =>
    rcases List.mem_cons.mp hmem with heq | hmem2
    · subst heq
      simp [imputeRow, impute_indyrcontavg, hkey]
    · rcases p with ⟨y, v⟩
      cases hv : impute_indyrcontavg contAvgs ind cont y v with
      | error e =>
        have he := impute_error_is_keyError contAvgs ind cont y v e hv
        subst he
        simp [imputeRow, hv]
      | ok w =>
        simp [imputeRow, hv, ih hmem2]

/-- Witness for C5: one missing cell, empty lookup table. -/
theorem avg_table_missing_key_witness :
    ((2006, (none : Option ℚ)) ∈ [((2006 : Nat), (none : Option ℚ))] ∧
     (fun (_ _ : String) (_ : Nat) => (none : Option ℚ)) "GDP" "SA" 2006 = none) ∧
    imputeRow (fun _ _ _ => none) "GDP" "SA" [(2006, none)]
      = Except.error PyError.keyError :=
  ⟨⟨by decide, rfl⟩,
   avg_table_missing_key (fun _ _ _ => none) "GDP" "SA"
     [(2006, none)] 2006 (by decide) rfl⟩

/-- C6: average-table imputation of a row with no missing value succeeds
and leaves every cell unchanged, so re-running imputation on an
already-fully-imputed row is a no-op. -/
theorem avg_table_idempotent (contAvgs : String → String → Nat → Option ℚ)
    (ind cont : String) (entries : List (Nat × Option ℚ))
    (h : ∀ p ∈ entries, (p.2).isSome = true) :
    imputeRow contAvgs ind cont entries = Except.ok entries := by
  induction entries with
  | nil => rfl
  | cons p rest ih =>
    rcases p with ⟨y, v⟩
    have hv : v.isSome = true := h (y, v) (List.mem_cons_self _ _)
    have hrest := ih (fun q hq => h q (List.mem_cons_of_mem _ hq))
    have hvn : v.isNone = false := by
      cases v with
      | none => simp at hv
      | some w => rfl
    simp [imputeRow, impute_indyrcontavg, hvn, hrest]

theorem range'_cons (s n : Nat) :
    List.range' s (n + 1) = s :: List.range' (s + 1) n := rfl

theorem get?_range_self (n i : Nat) (h : i < n) :
    (List.range n).get? i = some i := by
  rw [List.get?_eq_getElem?]
  simp [List.getElem?_range, h]

theorem interpRow_get? (vals : List (Option ℚ)) (i : Nat)
    (h : i < vals.length) :
    (interpRow vals).get? i = some (interpAt vals i) := by
  unfold interpRow
  rw [get?_map_eq, get?_range_self _ _ h]
  rfl

theorem interpAt_of_none (vals : List (Option ℚ)) (i : Nat)
    (h : vals.get? i = some none) : interpAt vals i = interpFill vals i := by
  unfold interpAt
  rw [h]

theorem nextValid_succ (vals : List (Option ℚ)) (i : Nat) (b : ℚ)
    (h : vals.get? (i + 1) = some (some b)) :
    nextValid vals i = some (i + 1, b) := by
  unfold nextValid
  have hlen : i + 1 < vals.length := get?_some_lt h
  have h2 : vals.length - (i + 1) = (vals.length - (i + 2)) + 1 := by omega
  rw [h2, range'_cons]
  simp only [List.findSome?_cons]
  rw [h]
  rfl

theorem prevValid_succ (vals : List (Option ℚ)) (i : Nat) (a : ℚ)
    (h : vals.get? i = some (some a)) :
    prevValid vals (i + 1) = some (i, a) := by
  unfold prevValid
  rw [List.range_succ, List.reverse_append]
  simp only [List.reverse_singleton, List.singleton_append, List.findSome?_cons]
  rw [h]
  rfl

theorem nextValid_spec (vals : List (Option ℚ)) (i k : Nat) (b : ℚ)
    (h : nextValid vals i = some (k, b)) :
    i < k ∧ vals.get? k = some (some b) := by
  unfold nextValid at h
  obtain ⟨a, ha, hfa⟩ := List.exists_of_findSome?_eq_some h
  obtain ⟨t, ht, rfl⟩ := List.mem_range'.mp ha
  cases hj : (vals.get? (i + 1 + 1 * t)).join with
  | none => rw [hj] at hfa; cases hfa
  | some c =>
    rw [hj] at hfa
    simp only [Option.map_some'] at hfa
    injection hfa with hfa2
    have hk : i + 1 + 1 * t = k := congrArg Prod.fst hfa2
    have hc : c = b := congrArg Prod.snd hfa2
    subst hk
    subst hc
    exact ⟨by omega, Option.join_eq_some.mp hj⟩

theorem interpFill_between (vals : List (Option ℚ)) (i j k : Nat) (a b : ℚ)
    (hprev : prevValid vals i = some (j, a))
    (hnext : nextValid vals i = some (k, b))
    (h50 : k - i ≤ 50) :
    interpFill vals i
      = some (a + (b - a) * (((i : ℚ) - (j : ℚ)) / ((k : ℚ) - (j : ℚ)))) := by
  unfold interpFill
  split
  · rename_i heq
    rw [hnext] at heq
    cases heq
  · rename_i k2 b2 heq
    rw [hnext] at heq
    injection heq with heq2
    have hk : k = k2 := congrArg Prod.fst heq2
    have hb : b = b2 := congrArg Prod.snd heq2
    subst hk
    subst hb
    rw [if_pos h50]
    split
    · rename_i j2 a2 heq3
      rw [hprev] at heq3
      injection heq3 with heq4
      have hj : j = j2 := congrArg Prod.fst heq4
      have ha : a = a2 := congrArg Prod.snd heq4
      subst hj
      subst ha
      rfl
    · rename_i heq3
      rw [hprev] at heq3
      cases heq3

/-- C7: a single missing value strictly bounded by two known neighbours
one position away is filled with their arithmetic mean, and in a
contiguous gap of 51 missing values the earliest one is never filled
(at most 50 consecutive missing values are filled). -/
theorem interp_mean_and_gap_limit :
    (∀ (vals : List (Option ℚ)) (i : Nat) (a b : ℚ),
      vals.get? i = some (some a) → vals.get? (i + 1) = some none →
      vals.get? (i + 2) = some (some b) →
      (interpRow vals).get? (i + 1) = some (some ((a + b) / 2))) ∧
    (∀ (vals : List (Option ℚ)) (i : Nat),
      (∀ t, t ≤ 50 → vals.get? (i + t) = some none) →
      (interpRow vals).get? i = some none) := by
  constructor
  · intro vals i a b h1 h2 h3
    have hlen : i + 2 < vals.length := get?_some_lt h3
    have hnext := nextValid_succ vals (i + 1) b h3
    have hprev := prevValid_succ vals i a h1
    have hi1 : i + 1 < vals.length := by omega
    rw [interpRow_get? vals (i + 1) hi1, interpAt_of_none vals (i + 1) h2,
      interpFill_between vals (i + 1) i (i + 1 + 1) a b hprev hnext (by omega)]
    have harith : a + (b - a) * (((i + 1 : ℕ) : ℚ) - (i : ℚ)) / (((i + 1 + 1 : ℕ) : ℚ) - (i : ℚ))
        = (a + b) / 2 := by
      push_cast
      ring
    rw [mul_div_assoc] at harith
    rw [harith]
  · intro vals i h
    have h0 : vals.get? i = some none := by
      have := h 0 (by omega)
      simpa using this
    have hi : i < vals.length := get?_some_lt h0
    rw [interpRow_get? vals i hi, interpAt_of_none vals i h0]
    suffices hfill : interpFill vals i = none by rw [hfill]
    unfold interpFill
    split
    · rfl
    · rename_i k b heq
      obtain ⟨hik, hk⟩ := nextValid_spec vals i k b heq
      have hfar : ¬ (k - i ≤ 50) := by
        intro hle
        have ht : vals.get? (i + (k - i)) = some none := h (k - i) hle
        rw [show i + (k - i) = k from by omega] at ht
        rw [ht] at hk
        simp at hk
      rw [if_neg hfar]

/-- Witness for C7: the gap of one between 1 and 3 is filled with their
mean, and the first cell of a 51-wide gap before a valid cell stays
missing. -/
theorem interp_mean_and_gap_limit_witness :
    (interpRow [some 1, none, some 3]).get? 1 = some (some ((1 + 3) / 2)) ∧
    (interpRow (List.replicate 51 none ++ [some 5])).get? 0 = some none :=
  ⟨interp_mean_and_gap_limit.1 [some 1, none, some 3] 0 1 3 rfl rfl rfl,
   interp_mean_and_gap_limit.2 (List.replicate 51 none ++ [some 5]) 0 (by decide)⟩

/-- Witness for C6 on a fully-present row. -/
theorem avg_table_idempotent_witness :
    (∀ p ∈ [((2000 : Nat), some (1 : ℚ)), (2001, some 2)], (p.2).isSome = true) ∧
    imputeRow (fun _ _ _ => some 7) "GDP" "SA" [(2000, some 1), (2001, some 2)]
      = Except.ok [(2000, some 1), (2001, some 2)] :=
  ⟨by decide,
   avg_table_idempotent (fun _ _ _ => some 7) "GDP" "SA"
     [(2000, some 1), (2001, some 2)] (by decide)⟩

theorem get?_isSome_of_lt {α : Type} :
    ∀ (l : List α) (k : Nat), k < l.length → (l.get? k).isSome = true := by
  intro l
  induction l with
  | nil => intro k h; simp at h
  | cons x xs ih =>
    intro k h
    cases k with
    | zero => rfl
    | succ n =>
      have hn : n < xs.length := by simpa [Nat.succ_lt_succ_iff] using h
      exact ih n hn

/-- C10: the Target returned by preprocess_avg_NANs is exempt from all
imputation: Y is extracted before the median/recent-value fill and
before interpolation and never written afterwards, so entry i of Y is
exactly the raw most-recent-year value of selected row i, missing
entries included. -/
theorem target_exempt_from_imputation (table : List Row) (idx : List Nat)
    (years_ahead i j : Nat) (r : Row)
    (hvalid : ∀ k ∈ idx, k < table.length)
    (hij : idx.get? i = some j) (hr : table.get? j = some r) :
    (preprocess_avg_NANs table idx years_ahead).2.get? i
      = some ((r.values.getLast?).join) := by
  have hv : ∀ k ∈ idx, (table.get? k).isSome = true := by
    intro k hk
    exact get?_isSome_of_lt table k (hvalid k hk)
  show ((selectRows table idx).map (fun r => (r.values.getLast?).join)).get? i = _
  rw [get?_map_eq, selectRows_get? table idx i hv, hij]
  show (table.get? j).map (fun r => (r.values.getLast?).join) = _
  rw [hr]
  rfl

/-- Witness for C10: a selected row whose most recent year is missing
keeps that missing entry in Y, untouched by either fill phase. -/
theorem target_exempt_from_imputation_witness :
    (preprocess_avg_NANs [⟨"GDP", [some 1, some 2, none]⟩] [0] 1).2.get? 0
      = some (([some (1 : ℚ), some 2, none].getLast?).join) :=
  target_exempt_from_imputation [⟨"GDP", [some 1, some 2, none]⟩] [0] 1 0 0
    ⟨"GDP", [some 1, some 2, none]⟩ (by decide) rfl rfl

/-- Witness for the amended C1 at a concrete input. -/
theorem split_target_amended_witness :
    (preprocess_simple [⟨"s", [some 10, some 20, some 30]⟩] [0] 1).2.get? 0
        = some (some 30) ∧
    ∃ rx, (preprocess_simple [⟨"s", [some 10, some 20, some 30]⟩] [0] 1).1.get? 0
        = some rx ∧
      rx.values = [some 10, some 20, some 30].take 2 ∧
      rx.values.length + 1 = 3 := by
  have h := split_target_amended [⟨"s", [some 10, some 20, some 30]⟩] [0] 1 0
    ⟨"s", [some 10, some 20, some 30]⟩ (by decide) (by decide)
  exact h

end Undevgoals
